import Mathlib

/-!
Verification of the concurrent pipeline of yolo-cls.

The development shallowly embeds the parts of the repository the claims
are about:

* `tsqueue` (src/src/tsqueue.h and the implementation file, a thread-safe
  closeable FIFO of strings).  Every public operation of the C++ class runs
  inside a single critical section guarded by one mutex, so each operation
  is atomic; a concurrent execution of pushes, pops and closes is therefore
  equivalent to some sequential interleaving of atomic operations, which is
  what the step functions below model.  The blocking `pop` is modelled as a
  partial observation: `pop s = none` means the caller blocks at state `s`
  (the condition-variable wait predicate `!queue.empty() || done` is false),
  and `pop s = some (r, s')` means `pop` returns `r` leaving the queue in
  state `s'`.
* the top-k post-processing bound check of `yolo::predict` (yolo.cpp),
* `parse_arguments`, `is_supported_image`, `thread_get_line` and
  `thread_classify` (utils.cpp),
* the orchestration order of `main` (yolo-cls.cpp).
-/

/-- State of the `tsqueue` class: the underlying `std::queue<std::string>`
(head of the list is the front of the queue) and the `done` flag set by
`close()`. -/
structure tsqueue where
  queue : List String
  done : Bool
deriving DecidableEq

/-- `tsqueue::push`: appends the value at the tail.  The C++ implementation
takes the lock, does `queue.push(value)` and notifies one waiter; it never
consults the `done` flag. -/
def tsqueue.push (s : tsqueue) (value : String) : tsqueue :=
  { s with queue := s.queue ++ [value] }

/-- `tsqueue::pop`: waits until `!queue.empty() || done`, then returns the
front if the queue is nonempty, else `std::nullopt`.  Result `none` models
the caller staying blocked at this state; `some (r, s')` models `pop`
returning `r` with the queue left in state `s'`. -/
def tsqueue.pop (s : tsqueue) : Option (Option String × tsqueue) :=
  match s.queue with
  | v :: rest => some (some v, { s with queue := rest })
  | [] => if s.done = true then some (none, s) else none

/-- `tsqueue::close`: sets the `done` flag and wakes all waiters. -/
def tsqueue.close (s : tsqueue) : tsqueue :=
  { s with done := true }

/-- Push a whole list of values in order (a single producer's pushes). -/
def tsqueue.pushAll (s : tsqueue) (items : List String) : tsqueue :=
  items.foldl tsqueue.push s

/-- Perform `n` successive pops, collecting the returned values; stops
early if a pop would block. -/
def tsqueue.popList : tsqueue → Nat → List (Option String) × tsqueue
  | s, 0 => ([], s)
  | s, n + 1 =>
    match s.pop with
    | some (r, s') =>
      let p := tsqueue.popList s' n
      (r :: p.1, p.2)
    | none => ([], s)

/-- The result of the `(n+1)`-th successive pop starting from `s`
(`none` when that pop blocks). -/
def tsqueue.popSeq : tsqueue → Nat → Option (Option String)
  | s, 0 => Option.map Prod.fst s.pop
  | s, n + 1 =>
    match s.pop with
    | some (_, s') => tsqueue.popSeq s' n
    | none => none

/-- `n` successive calls of `close()`. -/
def tsqueue.closeN (s : tsqueue) : Nat → tsqueue
  | 0 => s
  | n + 1 => (tsqueue.closeN s n).close

/-- One atomic queue operation, as serialized by the mutex of `tsqueue`. -/
inductive qop where
  | push (v : String)
  | pop
  | close
deriving DecidableEq

/-- The values pushed by an operation sequence, in order. -/
def pushedItems : List qop → List String
  | [] => []
  | qop.push v :: rest => v :: pushedItems rest
  | qop.pop :: rest => pushedItems rest
  | qop.close :: rest => pushedItems rest

/-- Run a sequence of atomic queue operations, returning the final state
and the list of values returned by the completed pops, in order.  A `pop`
event at a state where `tsqueue.pop` blocks has no effect (in the real
execution the consumer merely waits; the completed operation would appear
later in the interleaving). -/
def runOps : tsqueue → List qop → tsqueue × List String
  | s, [] => (s, [])
  | s, qop.push v :: rest => runOps (s.push v) rest
  | s, qop.close :: rest => runOps s.close rest
  | s, qop.pop :: rest =>
    match s.pop with
    | some (some v, s') =>
      let p := runOps s' rest
      (p.1, v :: p.2)
    | some (none, s') => runOps s' rest
    | none => runOps s rest

/-- The bound check of the top-k loop of `yolo::predict` (yolo.cpp):
`class_index <= class_names.size()`. -/
def boundCheckAdmits (class_names : List String) (class_index : Nat) : Bool :=
  decide (class_index ≤ class_names.length)

/-- The name chosen by the top-k loop of `yolo::predict` for `class_index`:
`class_names[class_index]` when the bound check admits the index (the
out-of-bounds access `class_index == class_names.size()` is modelled as
`none`, since `std::vector::operator[]` past the end is undefined
behaviour), and the fallback `"class_" + std::to_string(class_index)`
otherwise. -/
def lookupClassName (class_names : List String) (class_index : Nat) : Option String :=
  if class_index ≤ class_names.length then class_names.get? class_index
  else some ("class_" ++ toString class_index)

/-- The `configuration` struct of utils.h.  `top_k` is a C++ `int` and
`threads` a C++ `unsigned int` (stored as the represented natural number);
`max_filesize` is a `uint64_t`.  The default of `threads` is
`std::thread::hardware_concurrency()`, supplied as a parameter to
`parse_arguments` below; the default of `max_filesize` is
`string_unit_to_numeric("100mb") = 100 * 1024 * 1024`. -/
structure configuration where
  model_path : String := ""
  classes_path : String := ""
  top_k : Int := 5
  threads : Nat := 0
  enable_timing : Bool := false
  use_softmax : Bool := false
  max_filesize : Nat := 104857600
  disable_extension_check : Bool := false
  image_files : List String := []
deriving DecidableEq

/-- C++ conversion from `int` to `unsigned int` (modular, 32 bits). -/
def uint32_of_int (n : Int) : Nat := (n % 4294967296).toNat

/-- One successfully recognized command-line option, as produced by the
`xgetopt_long` loop of `parse_arguments` (utils.cpp).  The `-h`, `-v`,
`-a` cases call `exit` and the default case throws, so none of them yields
a configuration; an accepted command line is a list of the cases below
plus the positional arguments.  The payloads of `optTopK` and
`optThreads` are the `std::stoi` results; the payload of
`optMaxFilesize` is the `string_unit_to_numeric` result. -/
inductive cliopt where
  | optModel (s : String)
  | optClasses (s : String)
  | optTopK (n : Int)
  | optThreads (n : Int)
  | optTiming
  | optSoftmax
  | optMaxFilesize (n : Nat)
  | optNoExtCheck
deriving DecidableEq

/-- The switch body of the `xgetopt_long` loop of `parse_arguments`. -/
def applyOpt (r : configuration) : cliopt → configuration
  | cliopt.optModel s => { r with model_path := s }
  | cliopt.optClasses s => { r with classes_path := s }
  | cliopt.optTopK n => { r with top_k := n }
  | cliopt.optThreads n => { r with threads := uint32_of_int n }
  | cliopt.optTiming => { r with enable_timing := true }
  | cliopt.optSoftmax => { r with use_softmax := true }
  | cliopt.optMaxFilesize n => { r with max_filesize := n }
  | cliopt.optNoExtCheck => { r with disable_extension_check := true }

/-- `parse_arguments` (utils.cpp) on an accepted command line: start from
the defaults (with `threads` initialized to
`std::thread::hardware_concurrency()`, passed here as `hw`, reduced to
`unsigned int`), fold the recognized options, append the remaining
non-option arguments to `image_files`, and finally coerce
`threads == 0` to `1`. -/
def parse_arguments (hw : Nat) (opts : List cliopt) (positional : List String) :
    configuration :=
  let r0 : configuration := { threads := hw % 4294967296 }
  let r1 := opts.foldl applyOpt r0
  let r2 := { r1 with image_files := r1.image_files ++ positional }
  if r2.threads = 0 then { r2 with threads := 1 } else r2

/-- The extension whitelist of `is_supported_image` (utils.cpp).  The
source inserts `"hdr"` twice into the `std::unordered_set`; membership is
unaffected. -/
def supported_extensions : List String :=
  ["bmp", "dib", "jpeg", "jpg", "jpe", "jp2", "png", "webp", "pbm", "pgm",
   "ppm", "pxm", "pnm", "sr", "ras", "tiff", "tif", "exr", "hdr", "pic",
   "dt0", "dt1", "dt2", "hdr", "img", "j2k", "ecw"]

/-- `is_supported_image` (utils.cpp): strip one leading dot if present,
lowercase each character (`Char.toLower` lowers exactly `A`-`Z`, matching
`std::tolower` in the C locale), and test membership in the whitelist. -/
def is_supported_image (extension : String) : Bool :=
  let ext : List Char :=
    match extension.data with
    | '.' :: rest => rest
    | l => l
  (supported_extensions.map String.data).contains (ext.map Char.toLower)

/-- Split a character list on a separator character (the list of fields,
empty fields included), used to model `std::filesystem::path` filename
and extension parsing. -/
def splitOnChar (sep : Char) : List Char → List (List Char)
  | [] => [[]]
  | c :: rest =>
    match splitOnChar sep rest with
    | [] => if c = sep then [[], []] else [[c]]
    | h :: t => if c = sep then [] :: h :: t else (c :: h) :: t

/-- `std::filesystem::path(p).extension().string()` for POSIX paths: the
part of the filename from its last dot on, except that a filename of
`"."` or `".."`, a filename without a dot, and a filename whose only dot
is its first character have an empty extension. -/
def pathExtension (p : String) : String :=
  let filename := (splitOnChar '/' p.data).getLastD []
  if filename = ['.'] ∨ filename = ['.', '.'] then ""
  else
    let parts := splitOnChar '.' filename
    if parts.length ≤ 1 then ""
    else if parts.length = 2 ∧ parts.headD [] = [] then ""
    else String.mk ('.' :: parts.getLastD [])

/-- The per-line filter of `thread_get_line` (utils.cpp): a line is pushed
iff the extension check is disabled or `is_supported_image` accepts the
line's extension. -/
def line_accepted (c : configuration) (line : String) : Bool :=
  if ¬ c.disable_extension_check then is_supported_image (pathExtension line)
  else true

/-- `thread_get_line` (utils.cpp) as the sequence of atomic operations it
performs on the input queue, given the finite list of lines `std::getline`
yields before EOF: for each line in order, push it if the filter lets it
through (a filtered-out line causes no operation at all — no error is
reported), and after the last line call `close()` once. -/
def thread_get_line (c : configuration) : List String → List qop
  | [] => [qop.close]
  | line :: rest =>
    (if ¬ c.disable_extension_check then
      (if is_supported_image (pathExtension line) then [qop.push line] else [])
    else [qop.push line]) ++ thread_get_line c rest

/-- The `prediction` struct of yolo.h.  The claims here never inspect the
numeric value of the confidence, only the formatted output line, so the
`float confidence` field is modelled by its `std::to_string` rendering. -/
structure prediction where
  class_name : String
  confidence : String
deriving DecidableEq

/-- The environment a worker runs against: the file system and the
classifier, keyed by the item's path.  `predict` models
`model.predict(cv::imread(path), top_k)`, with a thrown exception as
`Except.error` carrying the exception message; `elapsed_ms` models the
wall-clock duration measured around the processing of the item. -/
structure fsenv where
  is_regular_file : String → Bool
  file_size : String → Nat
  imread_ok : String → Bool
  predict : String → Int → Except String (List prediction)
  elapsed_ms : String → Nat

/-- The `", "`-joined rendering of the predictions in the result line of
`thread_classify`. -/
def joinPredictions : List prediction → String
  | [] => ""
  | [p] => p.class_name ++ " " ++ p.confidence
  | p :: q :: rest =>
    p.class_name ++ " " ++ p.confidence ++ ", " ++ joinPredictions (q :: rest)

/-- The result line built by `thread_classify` for a successfully
processed item. -/
def format_result (env : fsenv) (c : configuration) (path : String)
    (cls : List prediction) : String :=
  let r := path
  let r := if c.enable_timing then
    r ++ ", " ++ toString (env.elapsed_ms path) ++ "ms" else r
  let r := if c.top_k ≠ 0 then r ++ ", " else r
  r ++ joinPredictions cls

/-- The try-block body of one iteration of `thread_classify` (utils.cpp):
check that the path is a regular file, that the file is neither empty nor
larger than `max_filesize`, that OpenCV can decode the image, then run the
classifier and format the result line.  Each thrown exception becomes
`Except.error` with the exception's message. -/
def process_item (env : fsenv) (c : configuration) (path : String) :
    Except String String :=
  if ¬ env.is_regular_file path then
    Except.error "Path is not a regular file or does not exist"
  else if env.file_size path = 0 then
    Except.error "File is empty."
  else if c.max_filesize < env.file_size path then
    Except.error "File is too large."
  else if ¬ env.imread_ok path then
    Except.error "OpenCV could not read or decode image."
  else
    match env.predict path c.top_k with
    | Except.error e => Except.error e
    | Except.ok cls => Except.ok (format_result env c path cls)

/-- The diagnostic line the catch-block of `thread_classify` writes to
`std::cerr` for a failed item (`std::endl` rendered as a newline). -/
def diag_message (path e : String) : String :=
  "yolo-cls: could not process the file '" ++ path ++ "': " ++ e ++ "\n"

/-- The worker loop of `thread_classify` (utils.cpp), run over the
sequence of items the worker pops from the (closed) input queue until it
observes end-of-stream.  Returns the result records the worker pushes to
the output queue and the diagnostic lines it writes, each in order. -/
def thread_classify (env : fsenv) (c : configuration) :
    List String → List String × List String
  | [] => ([], [])
  | path :: rest =>
    match process_item env c path with
    | Except.ok r =>
      let p := thread_classify env c rest
      (r :: p.1, p.2)
    | Except.error e =>
      let p := thread_classify env c rest
      (p.1, diag_message path e :: p.2)

/-- The thread-lifecycle events of `main` (yolo-cls.cpp), in program order
of the orchestrating thread.  `producer_phase` covers lines 92-113: either
the direct-mode pushes followed by `tsq_in.close()`, or starting the
`thread_get_line` thread and joining it. -/
inductive mevent where
  | start_collector
  | start_worker (i : Nat)
  | producer_phase
  | join_worker (i : Nat)
  | close_output
  | join_output
deriving DecidableEq

/-- The orchestration sequence of `main` (yolo-cls.cpp) with `n` worker
threads: start the output collector, start the workers, run the producer
phase, join every worker, close the output queue, join the collector. -/
def main_events (n : Nat) : List mevent :=
  mevent.start_collector :: (List.range n).map mevent.start_worker
    ++ mevent.producer_phase :: (List.range n).map mevent.join_worker
    ++ [mevent.close_output, mevent.join_output]

/-- Helper: every pop from the empty closed queue yields the end-of-stream
signal and never blocks. -/
theorem popSeq_closed_empty (n : Nat) :
    tsqueue.popSeq { queue := [], done := true } n = some none := by
  induction n with
  | zero => rfl
  | succ n ih =>
    simpa [tsqueue.popSeq, tsqueue.pop] using ih

/-- Helper: `pushAll` appends the pushed items at the tail and leaves the
`done` flag alone. -/
theorem pushAll_eq (s : tsqueue) (items : List String) :
    s.pushAll items = { queue := s.queue ++ items, done := s.done } := by
  induction items generalizing s with
  | nil => simp [tsqueue.pushAll]
  | cons v rest ih =>
    have h : s.pushAll (v :: rest) = (s.push v).pushAll rest := rfl
    rw [h, ih]
    simp [tsqueue.push]

/-- Helper: popping as many times as the queue holds items returns exactly
the queue contents, in order, and drains the queue. -/
theorem popList_full (q : List String) (d : Bool) :
    tsqueue.popList { queue := q, done := d } q.length
      = (q.map some, { queue := [], done := d }) := by
  induction q with
  | nil => rfl
  | cons v rest ih =>
    simp [tsqueue.popList, tsqueue.pop, ih]

/-- C1: the claim asserts that a `push` on a closed queue leaves the item
sequence unchanged.  The source of `tsqueue::push` never consults the
`done` flag, so pushing `"a.png"` onto the empty closed queue changes the
queue to hold `"a.png"`, and that item is returned by the next `pop`:
the claim is false at this input. -/
theorem C1_push_after_close_counterexample :
    ¬ ((tsqueue.push { queue := [], done := true } "a.png").queue
        = ({ queue := [], done := true } : tsqueue).queue) := by
  decide

/-- C1 (amended): a `push` on a closed queue is not a no-op — the item is
still appended at the tail, the queue stays closed, and on the empty
closed queue the pushed item is returned by the next `pop`. -/
theorem C1_push_after_close_appends (s : tsqueue) (v : String)
    (h : s.done = true) :
    (s.push v).queue = s.queue ++ [v] ∧ (s.push v).done = true
      ∧ (s.queue = [] → (s.push v).pop = some (some v, s)) := by
  obtain ⟨q, d⟩ := s
  subst h
  refine ⟨rfl, rfl, ?_⟩
  intro hq
  subst hq
  rfl

/-- C1 witness: the amended claim at the empty closed queue and item
`"a.png"`. -/
theorem C1_push_after_close_appends_witness :
    (tsqueue.push { queue := [], done := true } "a.png").queue
        = ({ queue := [], done := true } : tsqueue).queue ++ ["a.png"]
    ∧ (tsqueue.push { queue := [], done := true } "a.png").done = true
    ∧ (({ queue := [], done := true } : tsqueue).queue = [] →
        (tsqueue.push { queue := [], done := true } "a.png").pop
          = some (some "a.png", { queue := [], done := true })) :=
  C1_push_after_close_appends { queue := [], done := true } "a.png" rfl

/-- C2: whenever `pop` returns, it returns end-of-stream exactly when the
queue is closed and empty at the moment of observation (and then the state
is unchanged); it blocks exactly when the queue is open and empty; on a
nonempty queue it removes and returns the head; and on the empty closed
queue every subsequent pop again returns end-of-stream without blocking. -/
theorem C2_pop_end_of_stream (s : tsqueue) :
    (s.pop = some (none, s) ↔ s.done = true ∧ s.queue = [])
    ∧ (s.pop = none ↔ s.done = false ∧ s.queue = [])
    ∧ (∀ v rest, s.queue = v :: rest →
        s.pop = some (some v, { queue := rest, done := s.done }))
    ∧ (s.done = true → s.queue = [] → ∀ n, s.popSeq n = some none) := by
  obtain ⟨q, d⟩ := s
  refine ⟨?_, ?_, ?_, ?_⟩
  · cases q with
    | nil => cases d <;> simp [tsqueue.pop]
    | cons v rest => simp [tsqueue.pop]
  · cases q with
    | nil => cases d <;> simp [tsqueue.pop]
    | cons v rest => simp [tsqueue.pop]
  · intro v rest hq
    cases hq
    rfl
  · intro hd hq n
    cases hd
    cases hq
    exact popSeq_closed_empty n

/-- C2 witness: the theorem at the empty closed queue. -/
theorem C2_pop_end_of_stream_witness :
    tsqueue.pop { queue := [], done := true }
      = some (none, { queue := [], done := true }) :=
  ((C2_pop_end_of_stream { queue := [], done := true }).1).2 ⟨rfl, rfl⟩

/-- C6: a single producer pushing `items` (no interleaved close) onto a
queue with empty sequence gets them back from successive pops exactly in
push order. -/
theorem C6_fifo_per_producer (items : List String) (d : Bool) :
    tsqueue.popList (tsqueue.pushAll { queue := [], done := d } items)
        items.length
      = (items.map some, { queue := [], done := d }) := by
  rw [pushAll_eq]
  simpa using popList_full items d

/-- C7: `close` is idempotent — any positive number of `close` calls
yields the state of a single one, which has the `done` flag set and the
item sequence unchanged — and once the closed queue is drained every
further pop returns end-of-stream without blocking. -/
theorem C7_close_idempotent (s : tsqueue) (n : Nat) (h : 1 ≤ n) :
    tsqueue.closeN s n = s.close
    ∧ (s.close).done = true ∧ (s.close).queue = s.queue
    ∧ (s.queue = [] → ∀ k, (s.close).popSeq k = some none) := by
  refine ⟨?_, rfl, rfl, ?_⟩
  · induction n with
    | zero => omega
    | succ m ih =>
      cases Nat.eq_or_lt_of_le h with
      | inl h1 =>
        have hm : m = 0 := by omega
        subst hm
        rfl
      | inr h2 =>
        have hm : 1 ≤ m := by omega
        have : tsqueue.closeN s (m + 1) = (tsqueue.closeN s m).close := rfl
        rw [this, ih hm]
        obtain ⟨q, d⟩ := s
        rfl
  · intro hq k
    obtain ⟨q, d⟩ := s
    cases hq
    exact popSeq_closed_empty k

/-- Helper: conservation of items over any interleaving of atomic queue
operations — the values returned by completed pops plus the values still
queued are exactly the initially queued values plus the pushed values,
counted with multiplicity. -/
theorem runOps_count (ops : List qop) (s : tsqueue) (v : String) :
    (runOps s ops).2.count v + (runOps s ops).1.queue.count v
      = s.queue.count v + (pushedItems ops).count v := by
  induction ops generalizing s with
  | nil => simp [runOps, pushedItems]
  | cons op rest ih =>
    cases op with
    | push w =>
      have h := ih (s.push w)
      simp only [runOps, pushedItems, tsqueue.push, List.count_append,
        List.count_cons] at h ⊢
      by_cases hw : w = v <;> simp [hw] at h ⊢ <;> omega
    | close =>
      have h := ih s.close
      simpa [runOps, pushedItems, tsqueue.close] using h
    | pop =>
      obtain ⟨q, d⟩ := s
      cases q with
      | nil =>
        cases d with
        | false =>
          simpa [runOps, tsqueue.pop, pushedItems]
            using ih { queue := [], done := false }
        | true =>
          simpa [runOps, tsqueue.pop, pushedItems]
            using ih { queue := [], done := true }
      | cons x tail =>
        have h := ih { queue := tail, done := d }
        simp only [runOps, tsqueue.pop, pushedItems, List.count_cons] at h ⊢
        by_cases hx : x = v <;> simp [hx] at h ⊢ <;> omega

/-- C4: in every interleaving of atomic pushes, pops and closes (the mutex
of `tsqueue` serializes the operations, so every concurrent execution with
any number of consumers is one such interleaving), each value is returned
by pops exactly as often as it was initially queued plus pushed, minus
what still sits in the queue — so no item is duplicated; and whenever the
queue ends up drained, every pushed item has been returned by some pop
exactly once (counted with multiplicity). -/
theorem C4_no_loss_no_duplication (s : tsqueue) (ops : List qop) (v : String) :
    (runOps s ops).2.count v + (runOps s ops).1.queue.count v
      = s.queue.count v + (pushedItems ops).count v
    ∧ ((runOps s ops).1.queue = [] →
        (runOps s ops).2.count v
          = s.queue.count v + (pushedItems ops).count v) := by
  refine ⟨runOps_count ops s v, ?_⟩
  intro hdrained
  have h := runOps_count ops s v
  rw [hdrained] at h
  simpa using h

/-- C4 witness: the conservation statement for two items pushed before
close and then drained by three pops. -/
theorem C4_no_loss_no_duplication_witness :
    (runOps { queue := [], done := false }
        [qop.push "a.png", qop.push "b.png", qop.close, qop.pop, qop.pop,
          qop.pop]).2.count "a.png"
      + (runOps { queue := [], done := false }
          [qop.push "a.png", qop.push "b.png", qop.close, qop.pop, qop.pop,
            qop.pop]).1.queue.count "a.png"
      = ({ queue := [], done := false } : tsqueue).queue.count "a.png"
        + (pushedItems [qop.push "a.png", qop.push "b.png", qop.close,
            qop.pop, qop.pop, qop.pop]).count "a.png"
    ∧ ((runOps { queue := [], done := false }
          [qop.push "a.png", qop.push "b.png", qop.close, qop.pop, qop.pop,
            qop.pop]).1.queue = [] →
        (runOps { queue := [], done := false }
            [qop.push "a.png", qop.push "b.png", qop.close, qop.pop,
              qop.pop, qop.pop]).2.count "a.png"
          = ({ queue := [], done := false } : tsqueue).queue.count "a.png"
            + (pushedItems [qop.push "a.png", qop.push "b.png", qop.close,
                qop.pop, qop.pop, qop.pop]).count "a.png") :=
  C4_no_loss_no_duplication { queue := [], done := false }
    [qop.push "a.png", qop.push "b.png", qop.close, qop.pop, qop.pop,
      qop.pop] "a.png"

/-- C3: the claim asserts that every class index admitted by the bound
check `class_index <= class_names.size()` is strictly in bounds.  With one
class name and `class_index = 1` the check admits the index, yet the
access `class_names[1]` is out of bounds (`none` in the model, undefined
behaviour in the C++): the strict-bound reading is violated by the
source's `<=`. -/
theorem C3_bound_check_off_by_one :
    boundCheckAdmits ["tench"] 1 = true
    ∧ ¬ (1 < (["tench"] : List String).length)
    ∧ (["tench"] : List String).get? 1 = none
    ∧ lookupClassName ["tench"] 1 = none := by
  decide

/-- C10: every configuration returned by `parse_arguments` has a positive
thread count — an explicit `--threads 0` (and a zero
`hardware_concurrency` default) is coerced to `1` by the final check. -/
theorem C10_threads_positive (hw : Nat) (opts : List cliopt)
    (positional : List String) :
    1 ≤ (parse_arguments hw opts positional).threads := by
  simp only [parse_arguments]
  split
  next => exact Nat.le_refl 1
  next h => exact Nat.pos_of_ne_zero h

/-- Helper: `thread_get_line` is exactly the pushes of the accepted lines,
in input order, followed by one close. -/
theorem thread_get_line_eq (c : configuration) (lines : List String) :
    thread_get_line c lines
      = (lines.filter (line_accepted c)).map qop.push ++ [qop.close] := by
  induction lines with
  | nil => rfl
  | cons line rest ih =>
    by_cases hd : c.disable_extension_check
    · simp [thread_get_line, line_accepted, hd, ih]
    · by_cases ha : is_supported_image (pathExtension line)
      · simp [thread_get_line, line_accepted, hd, ha, ih]
      · simp [thread_get_line, line_accepted, hd, ha, ih]

/-- Helper: running pushes of `items` followed by one close appends the
items in order and marks the queue done, completing no pop. -/
theorem runOps_pushes_close (items : List String) (s : tsqueue) :
    runOps s (items.map qop.push ++ [qop.close])
      = ({ queue := s.queue ++ items, done := true }, []) := by
  induction items generalizing s with
  | nil =>
    obtain ⟨q, d⟩ := s
    simp [runOps, tsqueue.close]
  | cons v rest ih =>
    have h : runOps s ((v :: rest).map qop.push ++ [qop.close])
        = runOps (s.push v) (rest.map qop.push ++ [qop.close]) := rfl
    rw [h, ih]
    simp [tsqueue.push]

/-- C8: the streaming producer pushes to the input queue exactly the lines
accepted by the filter (every line when the extension check is disabled,
otherwise those whose extension `is_supported_image` accepts), in input
order, performing no other operation for a filtered-out line (in
particular reporting no error), and closes the queue exactly once, after
the source is exhausted — also when zero lines were pushed. -/
theorem C8_streaming_producer (c : configuration) (lines : List String)
    (s : tsqueue) :
    thread_get_line c lines
        = (lines.filter (line_accepted c)).map qop.push ++ [qop.close]
    ∧ (thread_get_line c lines).count qop.close = 1
    ∧ runOps s (thread_get_line c lines)
        = ({ queue := s.queue ++ lines.filter (line_accepted c),
              done := true }, []) := by
  refine ⟨thread_get_line_eq c lines, ?_, ?_⟩
  · rw [thread_get_line_eq]
    have h0 : ((lines.filter (line_accepted c)).map qop.push).count qop.close
        = 0 := by
      rw [List.count_eq_zero]
      simp
    simp [List.count_append, h0]
  · rw [thread_get_line_eq]
    exact runOps_pushes_close _ s

/-- C5 witness environment: no path is a regular file, so every item
fails its first precondition check. -/
def env0 : fsenv where
  is_regular_file := fun _ => false
  file_size := fun _ => 0
  imread_ok := fun _ => false
  predict := fun _ _ => Except.error "ORT failure"
  elapsed_ms := fun _ => 0

/-- C5: a worker whose processing of the head item fails pushes no result
record for it (the records it pushes are exactly those for the remaining
items), writes exactly one diagnostic line for it — a line that mentions
the item — and continues its loop on the subsequent items; and a failure
is always one of the enumerated causes: not a regular file, empty file,
oversized file, undecodable image, or the classifier throwing. -/
theorem C5_worker_isolation (env : fsenv) (c : configuration) (path : String)
    (rest : List String) (e : String)
    (h : process_item env c path = Except.error e) :
    (thread_classify env c (path :: rest)).1 = (thread_classify env c rest).1
    ∧ (thread_classify env c (path :: rest)).2
        = diag_message path e :: (thread_classify env c rest).2
    ∧ (∃ pre post, diag_message path e = pre ++ path ++ post)
    ∧ (env.is_regular_file path = false ∨ env.file_size path = 0
        ∨ c.max_filesize < env.file_size path
        ∨ env.imread_ok path = false
        ∨ ∃ msg, env.predict path c.top_k = Except.error msg) := by
  refine ⟨?_, ?_, ?_, ?_⟩
  · simp [thread_classify, h]
  · simp [thread_classify, h]
  · refine ⟨"yolo-cls: could not process the file '",
      "': " ++ e ++ "\n", ?_⟩
    simp [diag_message, String.append_assoc]
  · by_cases h1 : env.is_regular_file path
    · by_cases h2 : env.file_size path = 0
      · exact Or.inr (Or.inl h2)
      · by_cases h3 : c.max_filesize < env.file_size path
        · exact Or.inr (Or.inr (Or.inl h3))
        · by_cases h4 : env.imread_ok path
          · cases hp : env.predict path c.top_k with
            | error msg =>
              refine Or.inr (Or.inr (Or.inr (Or.inr ⟨msg, ?_⟩)))
              rfl
            | ok cls =>
              rw [process_item] at h
              simp [h1, h2, h3, h4, hp] at h
          · refine Or.inr (Or.inr (Or.inr (Or.inl ?_)))
            simpa using h4
    · refine Or.inl ?_
      simpa using h1

/-- C5 witness: the theorem for a missing file at the head of a
two-item work list. -/
theorem C5_worker_isolation_witness :
    (thread_classify env0 {} ["ghost.png", "also.png"]).1
        = (thread_classify env0 {} ["also.png"]).1
    ∧ (thread_classify env0 {} ["ghost.png", "also.png"]).2
        = diag_message "ghost.png"
            "Path is not a regular file or does not exist"
          :: (thread_classify env0 {} ["also.png"]).2
    ∧ (∃ pre post,
        diag_message "ghost.png" "Path is not a regular file or does not exist"
          = pre ++ "ghost.png" ++ post)
    ∧ (env0.is_regular_file "ghost.png" = false
        ∨ env0.file_size "ghost.png" = 0
        ∨ ({} : configuration).max_filesize < env0.file_size "ghost.png"
        ∨ env0.imread_ok "ghost.png" = false
        ∨ ∃ msg, env0.predict "ghost.png" ({} : configuration).top_k
            = Except.error msg) :=
  C5_worker_isolation env0 {} "ghost.png" ["also.png"]
    "Path is not a regular file or does not exist" rfl

/-- C9: in the orchestration sequence of `main`, the output queue is
closed exactly once; the close happens after every worker join (all worker
joins lie in the prefix before the close) and before the join of the
output collector, so no worker is running when the output queue is
closed. -/
theorem C9_output_close_after_worker_joins (n : Nat) :
    (main_events n).count mevent.close_output = 1
    ∧ ∃ pre, main_events n = pre ++ [mevent.close_output, mevent.join_output]
        ∧ (∀ i, i < n → mevent.join_worker i ∈ pre)
        ∧ mevent.close_output ∉ pre := by
  refine ⟨?_, ⟨mevent.start_collector ::
      ((List.range n).map mevent.start_worker
        ++ mevent.producer_phase :: (List.range n).map mevent.join_worker),
      ?_, ?_, ?_⟩⟩
  · have h1 : ((List.range n).map mevent.start_worker).count
        mevent.close_output = 0 := by
      rw [List.count_eq_zero]
      simp
    have h2 : ((List.range n).map mevent.join_worker).count
        mevent.close_output = 0 := by
      rw [List.count_eq_zero]
      simp
    simp [main_events, List.count_append, h1, h2]
  · simp [main_events]
  · intro i hi
    simp only [List.mem_cons, List.mem_append, List.mem_map, List.mem_range]
    exact Or.inr (Or.inr (Or.inr ⟨i, hi, rfl⟩))
  · simp

/-- C9 witness: the orchestration sequence with two workers closes the
output queue exactly once. -/
theorem C9_output_close_after_worker_joins_witness :
    (main_events 2).count mevent.close_output = 1 :=
  (C9_output_close_after_worker_joins 2).1

/-- C7 witness: the theorem for two `close` calls on an empty open
queue. -/
theorem C7_close_idempotent_witness :
    tsqueue.closeN { queue := [], done := false } 2
        = tsqueue.close { queue := [], done := false }
    ∧ (tsqueue.close { queue := [], done := false }).done = true
    ∧ (tsqueue.close { queue := [], done := false }).queue
        = ({ queue := [], done := false } : tsqueue).queue
    ∧ (({ queue := [], done := false } : tsqueue).queue = [] →
        ∀ k, (tsqueue.close { queue := [], done := false }).popSeq k
          = some none) :=
  C7_close_idempotent { queue := [], done := false } 2 (by decide)
